import Mathlib

/-!
Verification of the pathfinder db_build pipeline.

We shallowly embed the Python sources under `db_build/`:

* `curie_pmids_into_memory.py` — the versioned cache loader that bulk-loads
  (curie, serialized pmid list) rows from a sqlite snapshot into Redis,
  gated by a `"version"` marker key.
* `check_plover_url_compatibility.py` — `get_kg2_version_from_plover`,
  which extracts a `kg2c-X.Y.Z` version from the Plover `/code_version`
  endpoint's description field.
* `curie_ngd_builder.py` — the `__main__` orchestrator sequencing
  remote-artifact check, snapshot download, version check, cache load,
  NGD computation and upload.

Redis is modelled as an explicit state (version marker plus an association
list of set-valued keys, a key being present exactly when its set is
nonempty, as in Redis).  The sqlite snapshot is modelled as the list of its
rows; `ast.literal_eval` applied to a row's serialized payload is modelled
by a `Payload` that either carries the parsed Python literal or raises.
External network/ssh collaborators of the orchestrator are modelled as
oracles recorded in a `BuildEnv`.
-/

namespace Pathfinder

/-- A value sent to Redis by `sadd` (Redis stores members as byte strings):
either an integer pmid from a decoded list, or a single character obtained
by `*`-unpacking a Python string payload. -/
inductive RVal where
  | int : Int → RVal
  | char : Char → RVal
deriving DecidableEq, Repr

/-- The result of `ast.literal_eval` on a row's serialized pmids payload:
a Python list of integers, a Python string, or Python `None`. -/
inductive PyValue where
  | list : List Int → PyValue
  | str : String → PyValue
  | pyNone : PyValue
deriving DecidableEq, Repr

/-- Python truthiness of a decoded payload, as tested by `if not pmids`. -/
def PyValue.isTruthy : PyValue → Bool
  | .list xs => !xs.isEmpty
  | .str s => !s.isEmpty
  | .pyNone => false

/-- The arguments `*pmids` passed to `sadd`: the elements of a list, or the
characters of a string (iterating a Python string yields its characters). -/
def PyValue.members : PyValue → List RVal
  | .list xs => xs.map RVal.int
  | .str s => s.toList.map RVal.char
  | .pyNone => []

/-- A row's serialized pmids column as seen by `ast.literal_eval`: either it
parses to a Python literal value, or `literal_eval` raises
(`ValueError`/`SyntaxError` on malformed input). -/
inductive Payload where
  | lit : PyValue → Payload
  | bad : Payload
deriving DecidableEq, Repr

/-- A row of the `curie_to_pmids` sqlite table: `(curie, pmids)`. -/
abbrev Row := String × Payload

/-- The Redis database state: the scalar `"version"` marker key (absent or a
string), and the set-valued curie keys.  Redis keeps a set key exactly while
the set is nonempty, so an entry in `sets` always has a nonempty member
list. -/
structure RedisState where
  version : Option String
  sets : List (String × List RVal)
deriving DecidableEq, Repr

/-- The Redis database before any load: no marker, no sets. -/
def RedisState.empty : RedisState := ⟨none, []⟩

/-- The single error the loader model can raise: `ast.literal_eval` failing
on a malformed serialized payload (re-raised by the `except` block). -/
inductive LoadErr where
  | decodeError
deriving DecidableEq, Repr

/-- Adding one member to one set key, as Redis `SADD` does: create the key
if absent, append the member if not already present. -/
def saddMember (sets : List (String × List RVal)) (k : String) (m : RVal) :
    List (String × List RVal) :=
  match sets with
  | [] => [(k, [m])]
  | (k', ms) :: rest =>
    if k' = k then (k', if m ∈ ms then ms else ms ++ [m]) :: rest
    else (k', ms) :: saddMember rest k m

/-- One buffered pipeline command `sadd(curie, *members)` applied to the
Redis state. -/
def saddCmd (sets : List (String × List RVal)) (cmd : String × List RVal) :
    List (String × List RVal) :=
  cmd.2.foldl (fun s m => saddMember s cmd.1 m) sets

/-- `pipeline.execute()`: apply the buffered `sadd` commands in order. -/
def runPipeline (st : RedisState) (cmds : List (String × List RVal)) : RedisState :=
  { st with sets := cmds.foldl saddCmd st.sets }

/-- The `pipeline_size = 1000` constant of `curie_pmids_into_memory.py`. -/
def pipeline_size : Nat := 1000

/-- The `batch_size = 1000` constant of `curie_pmids_into_memory.py`. -/
def batch_size : Nat := 1000

/-- The inner `for curie, pmids_str in rows` loop over one fetched batch,
with the redis-py pipeline buffer (kept most-recent-first; `execute`
applies it in FIFO order and resets it).  `buffer` and `bufLen` mirror the
pipeline contents and `len(pipeline)`.  A malformed payload raises: the
commands still buffered are discarded (never executed) and the Redis state
reached so far is returned with the error. -/
def batchLoop (buffer : List (String × List RVal)) (bufLen : Nat)
    (st : RedisState) : List Row → Except RedisState RedisState
  | [] => .ok (runPipeline st buffer.reverse)
  | (curie, p) :: rest =>
    match p with
    | .bad => .error st
    | .lit v =>
      if v.isTruthy then
        let buffer' := (curie, v.members) :: buffer
        if pipeline_size ≤ bufLen + 1 then
          batchLoop [] 0 (runPipeline st buffer'.reverse) rest
        else
          batchLoop buffer' (bufLen + 1) st rest
      else batchLoop buffer bufLen st rest

/-- The outer `while True` loop: fetch `LIMIT batch_size OFFSET offset`
batches until a fetch comes back empty, processing each batch with a fresh
pipeline.  Structured over a fuel argument so that the recursion is
structural; every call site supplies fuel at least the number of remaining
rows, which `loadLoopF_fuel_irrelevant` below shows is always enough. -/
def loadLoopF : Nat → RedisState → List Row → Except RedisState RedisState
  | 0, st, _ => .ok st
  | fuel + 1, st, rows =>
    if rows.isEmpty then .ok st
    else
      match batchLoop [] 0 st (rows.take batch_size) with
      | .error st' => .error st'
      | .ok st' => loadLoopF fuel st' (rows.drop batch_size)

/-- The outer loop, entered with enough fuel to drain every batch. -/
def loadLoop (st : RedisState) (rows : List Row) : Except RedisState RedisState :=
  loadLoopF rows.length st rows

/-- The result of a call to the loader: the Redis state after the call
(including everything the `finally` block did) and, when the call raised,
the propagated error. -/
structure LoadResult where
  state : RedisState
  error : Option LoadErr
deriving DecidableEq, Repr

/-- `curie_pmids_into_memory(curie_to_pmids_path, version, redis_client)`:
if the stored `"version"` marker equals `version`, return at once;
otherwise `flushall`, stream the snapshot rows in batches of 1000 through
pipelined `sadd`s, and — in the `finally` block, hence on success AND on
error — set the `"version"` marker to `version` before the raised error (if
any) propagates. -/
def curie_pmids_into_memory (rows : List Row) (version : String)
    (st : RedisState) : LoadResult :=
  match st.version with
  | some rv =>
    if rv = version then ⟨st, none⟩
    else
      match loadLoop RedisState.empty rows with
      | .ok st2 => ⟨{ st2 with version := some version }, none⟩
      | .error st2 => ⟨{ st2 with version := some version }, some .decodeError⟩
  | none =>
    match loadLoop RedisState.empty rows with
    | .ok st2 => ⟨{ st2 with version := some version }, none⟩
    | .error st2 => ⟨{ st2 with version := some version }, some .decodeError⟩

/-! ### check_plover_url_compatibility.py -/

/-- Does a character list match the anchored pattern `\d+\.\d+\.\d+`
(a nonempty digit run, a dot, a nonempty digit run, a dot, a nonempty
digit run, end of string)? -/
def matchesVersionPattern (l : List Char) : Bool :=
  let d1 := l.takeWhile Char.isDigit
  match l.dropWhile Char.isDigit with
  | c1 :: r1 =>
    if c1 = '.' then
      let d2 := r1.takeWhile Char.isDigit
      match r1.dropWhile Char.isDigit with
      | c2 :: r2 =>
        if c2 = '.' then
          let d3 := r2.takeWhile Char.isDigit
          !d1.isEmpty && !d2.isEmpty && !d3.isEmpty &&
            (r2.dropWhile Char.isDigit).isEmpty
        else false
      | [] => false
    else false
  | [] => false

/-- Matching `\d+\.\d+\.\d+` at the start of `l` and returning the matched
characters.  Because a digit can never also be a literal dot, the greedy
`\d+` of Python's regex engine never backtracks here, so taking the maximal
digit run is exactly the regex behavior. -/
def matchVersionHere (l : List Char) : Option (List Char) :=
  let d1 := l.takeWhile Char.isDigit
  if d1.isEmpty then none
  else
    match l.dropWhile Char.isDigit with
    | c1 :: r1 =>
      if c1 = '.' then
        let d2 := r1.takeWhile Char.isDigit
        if d2.isEmpty then none
        else
          match r1.dropWhile Char.isDigit with
          | c2 :: r2 =>
            if c2 = '.' then
              let d3 := r2.takeWhile Char.isDigit
              if d3.isEmpty then none
              else some (d1 ++ '.' :: (d2 ++ '.' :: d3))
            else none
          | [] => none
      else none
    | [] => none

/-- Matching `kg2c-(\d+\.\d+\.\d+)` at the start of `l`, returning the
capture group. -/
def matchKg2cHere (l : List Char) : Option (List Char) :=
  match l with
  | 'k' :: 'g' :: '2' :: 'c' :: '-' :: rest => matchVersionHere rest
  | _ => none

/-- `re.search(r"kg2c-(\d+\.\d+\.\d+)", description)`: try the pattern at
every start position from the left, returning the first capture group. -/
def searchKg2c : List Char → Option (List Char)
  | [] => none
  | c :: rest =>
    match matchKg2cHere (c :: rest) with
    | some v => some v
    | none => searchKg2c rest

/-- The observable behavior of the Plover `/code_version` endpoint as seen
by `get_kg2_version_from_plover`: the HTTP request fails (or returns a bad
status, raised by `raise_for_status`), the JSON decodes but lacks the
`endpoint_build_nodes.kg2c.description` path (a `KeyError` is re-raised),
or the description string is obtained. -/
inductive PloverResponse where
  | httpError
  | badJson
  | ok : String → PloverResponse
deriving DecidableEq, Repr

/-- The exceptions `get_kg2_version_from_plover` can raise. -/
inductive PloverErr where
  | httpError
  | keyError
deriving DecidableEq, Repr

/-- `get_kg2_version_from_plover(url)`: raise on HTTP failure or unexpected
JSON structure; otherwise search the description for `kg2c-(\d+\.\d+\.\d+)`
and return the captured version string, or `None` when there is no match. -/
def get_kg2_version_from_plover (resp : PloverResponse) :
    Except PloverErr (Option String) :=
  match resp with
  | .httpError => .error .httpError
  | .badJson => .error .keyError
  | .ok description =>
    match searchKg2c description.toList with
    | some v => .ok (some (String.mk v))
    | none => .ok none

/-! ### curie_ngd_builder.py (`__main__`) -/

/-- The externally visible steps the builder script performs, in order. -/
inductive BuildAction where
  | checkRemote
  | download
  | queryPlover
  | cacheLoad
  | compute
  | upload
deriving DecidableEq, Repr

/-- How the builder process terminates: an explicit `exit(code)` call or
falling off the end of the script (`exited 0`), or an uncaught exception
(`raised`, a nonzero interpreter exit). -/
inductive BuildOutcome where
  | exited : Nat → BuildOutcome
  | raised : BuildOutcome
deriving DecidableEq, Repr

/-- The external collaborators of the builder script, as oracles:
`remote_file_exist` (may raise, else reports existence of the remote
curie_ngd artifact), `ensure_downloaded_and_verified` (may raise), the
Plover endpoint, the snapshot rows and initial Redis state consumed by
`curie_pmids_into_memory`, and `run_ngd_calculation_process` /
`upload_file` (each may raise). -/
structure BuildEnv where
  remoteExists : Except Unit Bool
  download : Except Unit Unit
  plover : PloverResponse
  rows : List Row
  redis0 : RedisState
  compute : Except Unit Unit
  upload : Except Unit Unit

/-- What a builder run did: how the process terminated, which steps ran
(in order), and the final Redis state. -/
structure BuildResult where
  outcome : BuildOutcome
  actions : List BuildAction
  redis : RedisState
deriving DecidableEq, Repr

/-- The `__main__` block of `curie_ngd_builder.py`.  `--kg-version` is
validated by `kg_version_validator` (argparse exits with status 2 on a
malformed version before anything runs).  Then, in order:
`remote_file_exist` for the output artifact — when it reports `False` the
script logs an error and calls `exit(0)`; `ensure_downloaded_and_verified`
for the snapshot; `get_kg2_version_from_plover` — `None` or a mismatch with
the requested version logs an error and calls `exit(0)`;
`curie_pmids_into_memory`; `run_ngd_calculation_process`; `upload_file`;
then the script ends (exit status 0). -/
def curie_ngd_builder_main (version : String) (env : BuildEnv) : BuildResult :=
  if !matchesVersionPattern version.toList then
    ⟨.exited 2, [], env.redis0⟩
  else
    match env.remoteExists with
    | .error _ => ⟨.raised, [.checkRemote], env.redis0⟩
    | .ok false => ⟨.exited 0, [.checkRemote], env.redis0⟩
    | .ok true =>
      match env.download with
      | .error _ => ⟨.raised, [.checkRemote, .download], env.redis0⟩
      | .ok _ =>
        match get_kg2_version_from_plover env.plover with
        | .error _ => ⟨.raised, [.checkRemote, .download, .queryPlover], env.redis0⟩
        | .ok none => ⟨.exited 0, [.checkRemote, .download, .queryPlover], env.redis0⟩
        | .ok (some pv) =>
          if pv ≠ version then
            ⟨.exited 0, [.checkRemote, .download, .queryPlover], env.redis0⟩
          else
            let lr := curie_pmids_into_memory env.rows version env.redis0
            match lr.error with
            | some _ =>
              ⟨.raised, [.checkRemote, .download, .queryPlover, .cacheLoad], lr.state⟩
            | none =>
              match env.compute with
              | .error _ =>
                ⟨.raised, [.checkRemote, .download, .queryPlover, .cacheLoad, .compute],
                  lr.state⟩
              | .ok _ =>
                match env.upload with
                | .error _ =>
                  ⟨.raised,
                    [.checkRemote, .download, .queryPlover, .cacheLoad, .compute, .upload],
                    lr.state⟩
                | .ok _ =>
                  ⟨.exited 0,
                    [.checkRemote, .download, .queryPlover, .cacheLoad, .compute, .upload],
                    lr.state⟩

/-! ### The NGD metric (spec §4.2) -/

/-- The NGD score of a pair: a numeric value or one of the two sentinels of
the degenerate-input policy. -/
inductive NgdResult where
  | undefinedSentinel
  | maxDistance
  | value : ℝ → NgdResult

/-- Modelled from the spec: `run_ngd_calculation_process` lives in
`ngd_calculation_process.py`, which is not among the available sources; the
metric it computes per concept pair is specified as
`ngd(A,B) = (log(max(|A|,|B|)) - log(|A∩B|)) / (log(N) - log(min(|A|,|B|)))`
with `log(N)` precomputed once, together with the degenerate-input policy:
an undefined sentinel when `|A| = 0` or `|B| = 0`, a maximum-distance
sentinel when `|A∩B| = 0` with both cardinalities positive, and the
undefined sentinel when the denominator is not positive. -/
noncomputable def ngd (logN : ℝ) (A B : Finset ℕ) : NgdResult :=
  if A.card = 0 ∨ B.card = 0 then .undefinedSentinel
  else if (A ∩ B).card = 0 then .maxDistance
  else if logN - Real.log (min A.card B.card) ≤ 0 then .undefinedSentinel
  else
    .value ((Real.log (max A.card B.card) - Real.log ((A ∩ B).card)) /
      (logN - Real.log (min A.card B.card)))

/-- The C1 failing input: a snapshot of 1001 rows whose first 1000 rows
(one full fetch batch) are well formed and whose 1001st row has a
malformed serialized pmids payload. -/
def rows1001 : List Row :=
  List.replicate 1000 ("MONDO:0005148", Payload.lit (.list [1])) ++
    [("CHEBI:2", Payload.bad)]

/-- A curie for which the snapshot holds at least one row whose payload
decodes to a truthy (nonempty) value. -/
def GoodKey (rows : List Row) (k : String) : Prop :=
  ∃ v : PyValue, (k, Payload.lit v) ∈ rows ∧ v.isTruthy = true

/-- Every set key in the store is nonempty and belongs to a curie with a
truthy snapshot row. -/
def SetsOk (rows : List Row) (sets : List (String × List RVal)) : Prop :=
  ∀ e ∈ sets, e.2 ≠ [] ∧ GoodKey rows e.1

/-- A run environment in which every collaborator succeeds and Plover
reports knowledge-graph version 2.10.2. -/
def envPlover2102 : BuildEnv :=
  { remoteExists := .ok true
    download := .ok ()
    plover := .ok "Build node kg2c-2.10.2-v1.0"
    rows := [("CHEBI:1", .lit (.list [1]))]
    redis0 := RedisState.empty
    compute := .ok ()
    upload := .ok () }

/-- The run environment of `envPlover2102`, except that the remote output
artifact is absent. -/
def envArtifactAbsent : BuildEnv :=
  { envPlover2102 with remoteExists := .ok false }

/-! ## Theorems about the cache loader -/

/-- After any call to the loader — no-op, successful load, or failed load —
the Redis `"version"` marker equals the requested version, because the
`finally` block sets it unconditionally. -/
lemma load_marker_eq (rows : List Row) (version : String) (st : RedisState) :
    (curie_pmids_into_memory rows version st).state.version = some version := by
  unfold curie_pmids_into_memory
  cases h : st.version with
  | none => cases loadLoop RedisState.empty rows <;> simp
  | some rv =>
    by_cases hrv : rv = version
    · simp [hrv, h]
    · simp only [hrv, if_neg hrv]
      cases loadLoop RedisState.empty rows <;> simp

/-- Claim C2: when the stored version marker already equals the requested
version, `curie_pmids_into_memory` returns at once with the store untouched
(no flush, no row reads, no set-add writes); consequently a second call
with the same version right after any first call is always such a no-op,
so the bulk load runs at most once per version. -/
theorem curie_pmids_into_memory_idempotent (rows : List Row) (version : String)
    (st : RedisState) :
    (st.version = some version → curie_pmids_into_memory rows version st = ⟨st, none⟩) ∧
    curie_pmids_into_memory rows version (curie_pmids_into_memory rows version st).state =
      ⟨(curie_pmids_into_memory rows version st).state, none⟩ := by
  constructor
  · intro h
    simp [curie_pmids_into_memory, h]
  · have h := load_marker_eq rows version st
    generalize hr : curie_pmids_into_memory rows version st = r at h ⊢
    simp [curie_pmids_into_memory, h]

/-- Witness for C2 at a concrete store whose marker already equals the
target version: the call returns the store unchanged. -/
theorem curie_pmids_into_memory_idempotent_witness :
    (⟨some "2.10.2", [("MONDO:0005148", [RVal.int 7])]⟩ : RedisState).version =
        some "2.10.2" ∧
    curie_pmids_into_memory [("CHEBI:1", .lit (.list [1, 2]))] "2.10.2"
        ⟨some "2.10.2", [("MONDO:0005148", [RVal.int 7])]⟩ =
      ⟨⟨some "2.10.2", [("MONDO:0005148", [RVal.int 7])]⟩, none⟩ :=
  ⟨rfl, (curie_pmids_into_memory_idempotent _ _ _).1 rfl⟩

/-- When the stored marker differs from (or lacks) the target version, the
call's outcome coincides with a load into an empty store, because
`flushall` runs before any row is touched. -/
lemma load_fresh (rows : List Row) (version : String) (st : RedisState)
    (h : st.version ≠ some version) :
    curie_pmids_into_memory rows version st =
      curie_pmids_into_memory rows version RedisState.empty := by
  unfold curie_pmids_into_memory
  cases hv : st.version with
  | none => rfl
  | some rv =>
    have hrv : rv ≠ version := fun e => h (by rw [hv, e])
    simp [hrv, RedisState.empty]

/-- Claim C6: when the stored marker differs from (or lacks) the target
version, the loader `flushall`s before writing anything, so its entire
result is as if it had started from an empty store: no stale entry from a
previous version can survive into the new load. -/
theorem curie_pmids_into_memory_total_replacement (rows : List Row)
    (version : String) (st : RedisState) (h : st.version ≠ some version) :
    curie_pmids_into_memory rows version st =
      curie_pmids_into_memory rows version RedisState.empty :=
  load_fresh rows version st h

/-- Witness for C6: loading version 2.10.2 over a store still holding
2.9.0 data gives exactly the result of loading into an empty store. -/
theorem curie_pmids_into_memory_total_replacement_witness :
    (⟨some "2.9.0", [("STALE:1", [RVal.int 3])]⟩ : RedisState).version ≠
        some "2.10.2" ∧
    curie_pmids_into_memory [("CHEBI:1", .lit (.list [1]))] "2.10.2"
        ⟨some "2.9.0", [("STALE:1", [RVal.int 3])]⟩ =
      curie_pmids_into_memory [("CHEBI:1", .lit (.list [1]))] "2.10.2"
        RedisState.empty :=
  ⟨by decide, curie_pmids_into_memory_total_replacement _ _ _ (by decide)⟩

/-- Executing an empty pipeline leaves the store unchanged. -/
lemma runPipeline_nil (st : RedisState) : runPipeline st [] = st := rfl

/-- Folding a fixed point of `f` over any number of copies of `a` stays at
the fixed point. -/
lemma foldl_fixed_replicate {α β : Type} (f : β → α → β) (s : β) (a : α)
    (h : f s a = s) : ∀ n, List.foldl f s (List.replicate n a) = s
  | 0 => rfl
  | n + 1 => by
    rw [List.replicate_succ, List.foldl_cons, h, foldl_fixed_replicate f s a h n]

/-- A batch of exactly `pipeline_size - bufLen` copies of one truthy row
drives the pipeline buffer to the `pipeline_size` threshold at its last
row, so the whole batch is executed: the result is `ok` with all buffered
commands applied in FIFO order. -/
lemma batchLoop_replicate_full (c : String) (v : PyValue) (hv : v.isTruthy = true) :
    ∀ (n : Nat) (buffer : List (String × List RVal)) (bufLen : Nat) (st : RedisState),
      bufLen + n = pipeline_size → 1 ≤ n →
      batchLoop buffer bufLen st (List.replicate n (c, Payload.lit v)) =
        .ok (runPipeline st ((List.replicate n (c, v.members) ++ buffer).reverse)) := by
  intro n
  induction n with
  | zero => intro _ _ _ _ hn; omega
  | succ n ih =>
    intro buffer bufLen st hsum _
    rw [List.replicate_succ, List.replicate_succ]
    simp only [batchLoop, hv, if_true]
    rcases Nat.eq_zero_or_pos n with hn | hn
    · subst hn
      have hle : pipeline_size ≤ bufLen + 1 := by omega
      rw [if_pos hle]
      simp [batchLoop, runPipeline_nil]
    · have hle : ¬ pipeline_size ≤ bufLen + 1 := by omega
      rw [if_neg hle]
      rw [ih ((c, v.members) :: buffer) (bufLen + 1) st (by omega) hn]
      have harr : List.replicate n (c, v.members) ++ ((c, v.members) :: buffer) =
          ((c, v.members) :: List.replicate n (c, v.members)) ++ buffer := by
        rw [← List.replicate_succ, List.replicate_succ', List.append_assoc]
        rfl
      rw [harr]


/-- One unfolding step of the outer load loop on a nonempty row list. -/
lemma loadLoopF_succ (fuel : Nat) (st : RedisState) (rows : List Row)
    (h : rows.isEmpty = false) :
    loadLoopF (fuel + 1) st rows =
      match batchLoop [] 0 st (rows.take batch_size) with
      | .error st' => .error st'
      | .ok st' => loadLoopF fuel st' (rows.drop batch_size) := by
  simp only [loadLoopF, h, Bool.false_eq_true, if_false]

/-- The outer loop stops at an empty row list, whatever the fuel. -/
lemma loadLoopF_nil : ∀ (fuel : Nat) (st : RedisState), loadLoopF fuel st [] = .ok st
  | 0, _ => rfl
  | _ + 1, _ => rfl

/-- Any fuel of at least the number of rows gives the same run as any
other such fuel: the fuel is an artifact of the embedding, not of the
loop, and `loadLoop`'s choice of `rows.length` is always enough. -/
lemma loadLoopF_fuel_irrelevant :
    ∀ (f1 f2 : Nat) (st : RedisState) (rows : List Row),
      rows.length ≤ f1 → rows.length ≤ f2 →
      loadLoopF f1 st rows = loadLoopF f2 st rows := by
  intro f1
  induction f1 with
  | zero =>
    intro f2 st rows h1 _
    have h : rows = [] := List.length_eq_zero.mp (Nat.le_zero.mp h1)
    subst h
    rw [loadLoopF_nil, loadLoopF_nil]
  | succ f1 ih =>
    intro f2 st rows h1 h2
    cases f2 with
    | zero =>
      have h : rows = [] := List.length_eq_zero.mp (Nat.le_zero.mp h2)
      subst h
      rw [loadLoopF_nil, loadLoopF_nil]
    | succ f2 =>
      by_cases he : rows.isEmpty = true
      · have h : rows = [] := List.isEmpty_iff.mp he
        subst h
        rw [loadLoopF_nil, loadLoopF_nil]
      · have hne : rows.isEmpty = false := by
          revert he
          cases rows.isEmpty <;> simp
        have hpos : 0 < rows.length := by
          cases rows with
          | nil => simp at hne
          | cons a l => simp
        rw [loadLoopF_succ f1 st rows hne, loadLoopF_succ f2 st rows hne]
        cases hbt : batchLoop [] 0 st (rows.take batch_size) with
        | error st' => rfl
        | ok st' =>
          have hl1 : (rows.drop batch_size).length ≤ f1 := by
            rw [List.length_drop]
            simp only [batch_size]
            omega
          have hl2 : (rows.drop batch_size).length ≤ f2 := by
            rw [List.length_drop]
            simp only [batch_size]
            omega
          exact ih f2 st' (rows.drop batch_size) hl1 hl2

/-- Running the load loop on `rows1001` from a flushed store writes the
first batch's citation set, then fails decoding the 1001st row. -/
lemma loadLoop_rows1001 :
    loadLoop RedisState.empty rows1001 =
      .error ⟨none, [("MONDO:0005148", [RVal.int 1])]⟩ := by
  have hlen : rows1001.length = 1001 := by
    rw [rows1001, List.length_append, List.length_replicate]
    rfl
  have hbs : batch_size =
      (List.replicate 1000 ("MONDO:0005148", Payload.lit (.list [1]))).length := by
    rw [List.length_replicate]
    rfl
  have htake : rows1001.take batch_size =
      List.replicate 1000 ("MONDO:0005148", Payload.lit (.list [1])) := by
    rw [rows1001, hbs, List.take_left]
  have hdrop : rows1001.drop batch_size = [("CHEBI:2", Payload.bad)] := by
    rw [rows1001, hbs, List.drop_left]
  have hne : rows1001.isEmpty = false := by
    have h : rows1001 ≠ [] := by
      rw [rows1001]
      intro h
      exact absurd (List.append_eq_nil.mp h).2 (by intro h'; cases h')
    simpa [List.isEmpty_iff] using h
  have hne2 : ([("CHEBI:2", Payload.bad)] : List Row).isEmpty = false := rfl
  have hbatch : batchLoop [] 0 RedisState.empty (rows1001.take batch_size) =
      .ok ⟨none, [("MONDO:0005148", [RVal.int 1])]⟩ := by
    rw [htake,
      batchLoop_replicate_full "MONDO:0005148" (.list [1]) rfl 1000 [] 0
        RedisState.empty (by decide) (by omega)]
    rw [List.append_nil, List.reverse_replicate]
    show Except.ok (runPipeline RedisState.empty
      (List.replicate 1000 ("MONDO:0005148", [RVal.int 1]))) = _
    rw [runPipeline, show (1000 : Nat) = 999 + 1 from rfl, List.replicate_succ,
      List.foldl_cons,
      show saddCmd RedisState.empty.sets ("MONDO:0005148", [RVal.int 1]) =
        [("MONDO:0005148", [RVal.int 1])] from rfl,
      foldl_fixed_replicate saddCmd [("MONDO:0005148", [RVal.int 1])]
        ("MONDO:0005148", [RVal.int 1]) rfl 999]
    rfl
  rw [loadLoop, hlen, show (1001 : Nat) = 1000 + 1 from rfl,
    loadLoopF_succ 1000 RedisState.empty rows1001 hne, hbatch, hdrop]
  show loadLoopF 1000 ⟨none, [("MONDO:0005148", [RVal.int 1])]⟩
      [("CHEBI:2", Payload.bad)] =
    Except.error ⟨none, [("MONDO:0005148", [RVal.int 1])]⟩
  rw [show (1000 : Nat) = 999 + 1 from rfl, loadLoopF_succ 999 _ _ hne2]
  rfl

/-- Claim C1: on the 1001-row snapshot whose last row is malformed, the
loader writes the first batch's citation set, raises a fatal decode error
that propagates — and nevertheless leaves the version marker EQUAL to the
target version, because the `finally` block of
`curie_pmids_into_memory.py` sets `"version"` unconditionally.  The
partially loaded cache (one citation set, not all) is therefore observable
as ready for the target version, contradicting the claimed atomicity. -/
theorem curie_pmids_marker_set_despite_partial_failure :
    (curie_pmids_into_memory rows1001 "2.10.2" RedisState.empty).error =
        some .decodeError ∧
    (curie_pmids_into_memory rows1001 "2.10.2" RedisState.empty).state =
      ⟨some "2.10.2", [("MONDO:0005148", [RVal.int 1])]⟩ := by
  have h : curie_pmids_into_memory rows1001 "2.10.2" RedisState.empty =
      ⟨⟨some "2.10.2", [("MONDO:0005148", [RVal.int 1])]⟩, some .decodeError⟩ := by
    unfold curie_pmids_into_memory
    rw [show RedisState.empty.version = none from rfl]
    rw [loadLoop_rows1001]
  rw [h]
  exact ⟨rfl, rfl⟩

/-- Claim C5 (failing evaluation): a row whose serialized payload is the
Python string literal `'abc'` — not a container of citation identifiers —
is NOT rejected: `ast.literal_eval` succeeds, the string is truthy, and
`sadd(curie, *pmids)` unpacks its characters into the store.  The load
completes normally (no error), silently storing garbage members. -/
theorem curie_pmids_accepts_noncontainer_payload :
    curie_pmids_into_memory [("CHEBI:1", .lit (.str "abc"))] "2.10.2"
        RedisState.empty =
      ⟨⟨some "2.10.2",
        [("CHEBI:1", [RVal.char 'a', RVal.char 'b', RVal.char 'c'])]⟩, none⟩ := by
  decide


/-- `SADD` of one member preserves the store invariant when the key being
written is good. -/
lemma saddMember_ok {rows : List Row} {k : String} (m : RVal) :
    ∀ sets, SetsOk rows sets → GoodKey rows k →
      SetsOk rows (saddMember sets k m) := by
  intro sets
  induction sets with
  | nil =>
    intro _ hk e he
    rcases List.mem_singleton.mp he with rfl
    exact ⟨List.cons_ne_nil _ _, hk⟩
  | cons hd tl ih =>
    obtain ⟨k', ms⟩ := hd
    intro hs hk e he
    simp only [saddMember] at he
    by_cases hkk : k' = k
    · rw [if_pos hkk] at he
      rcases List.mem_cons.mp he with rfl | he
      · refine ⟨?_, (hs (k', ms) (List.mem_cons_self _ _)).2⟩
        by_cases hm : m ∈ ms
        · simpa [hm] using (hs (k', ms) (List.mem_cons_self _ _)).1
        · simp [hm]
      · exact hs e (List.mem_cons_of_mem _ he)
    · rw [if_neg hkk] at he
      rcases List.mem_cons.mp he with rfl | he
      · exact hs (k', ms) (List.mem_cons_self _ _)
      · exact ih (fun e' he' => hs e' (List.mem_cons_of_mem _ he')) hk e he

/-- Repeated `SADD` of the members of one pipeline command preserves the
store invariant. -/
lemma foldl_saddMember_ok {rows : List Row} {k : String} :
    ∀ (ms : List RVal) (sets), SetsOk rows sets → GoodKey rows k →
      SetsOk rows (List.foldl (fun s m => saddMember s k m) sets ms)
  | [], _, hs, _ => hs
  | m :: ms, sets, hs, hk =>
    foldl_saddMember_ok ms (saddMember sets k m) (saddMember_ok m sets hs hk) hk

/-- Executing a list of good pipeline commands preserves the store
invariant. -/
lemma foldl_saddCmd_ok {rows : List Row} :
    ∀ (cmds : List (String × List RVal)) (sets), SetsOk rows sets →
      (∀ c ∈ cmds, GoodKey rows c.1) →
      SetsOk rows (List.foldl saddCmd sets cmds)
  | [], _, hs, _ => hs
  | cmd :: cmds, sets, hs, hc =>
    foldl_saddCmd_ok cmds (saddCmd sets cmd)
      (foldl_saddMember_ok cmd.2 sets hs (hc cmd (List.mem_cons_self _ _)))
      (fun c h => hc c (List.mem_cons_of_mem _ h))

/-- The batch loop only ever writes keys of truthy rows of its batch, so it
preserves the store invariant — in its normal result and equally in the
store it reports when a decode error interrupts it. -/
lemma batchLoop_ok {rows : List Row} :
    ∀ (rws : List Row) (buffer : List (String × List RVal)) (bufLen : Nat)
      (st st' : RedisState), SetsOk rows st.sets →
      (∀ c ∈ buffer, GoodKey rows c.1) →
      (∀ k v, (k, Payload.lit v) ∈ rws → v.isTruthy = true → GoodKey rows k) →
      (batchLoop buffer bufLen st rws = .ok st' ∨
        batchLoop buffer bufLen st rws = .error st') →
      SetsOk rows st'.sets := by
  intro rws
  induction rws with
  | nil =>
    intro buffer bufLen st st' hs hb _ hres
    rcases hres with h | h
    · simp only [batchLoop] at h
      injection h with h
      subst h
      exact foldl_saddCmd_ok buffer.reverse st.sets hs
        (fun c hc => hb c (List.mem_reverse.mp hc))
    · simp only [batchLoop] at h
      cases h
  | cons row rest ih =>
    obtain ⟨c, p⟩ := row
    intro buffer bufLen st st' hs hb hr hres
    cases p with
    | bad =>
      simp only [batchLoop] at hres
      rcases hres with h | h
      · cases h
      · injection h with h
        subst h
        exact hs
    | lit v =>
      have hrest : ∀ k v', (k, Payload.lit v') ∈ rest → v'.isTruthy = true →
          GoodKey rows k :=
        fun k v' hk hv' => hr k v' (List.mem_cons_of_mem _ hk) hv'
      by_cases hv : v.isTruthy = true
      · have hkc : GoodKey rows c := hr c v (List.mem_cons_self _ _) hv
        simp only [batchLoop, hv, if_true] at hres
        by_cases hp : pipeline_size ≤ bufLen + 1
        · rw [if_pos hp] at hres
          refine ih [] 0 _ st' ?_ (fun c' hc' => absurd hc' (List.not_mem_nil _))
            hrest hres
          exact foldl_saddCmd_ok _ st.sets hs (fun c' hc' => by
            rcases List.mem_cons.mp (List.mem_reverse.mp hc') with rfl | hc''
            · exact hkc
            · exact hb c' hc'')
        · rw [if_neg hp] at hres
          refine ih ((c, v.members) :: buffer) (bufLen + 1) st st' hs ?_ hrest hres
          intro c' hc'
          rcases List.mem_cons.mp hc' with rfl | hc''
          · exact hkc
          · exact hb c' hc''
      · simp only [batchLoop, hv, if_false] at hres
        exact ih buffer bufLen st st' hs hb hrest hres

/-- The outer load loop preserves the store invariant, again both on its
normal result and on the store reported with a decode error. -/
lemma loadLoopF_ok {rows : List Row} :
    ∀ (fuel : Nat) (rws : List Row) (st st' : RedisState),
      SetsOk rows st.sets →
      (∀ k v, (k, Payload.lit v) ∈ rws → v.isTruthy = true → GoodKey rows k) →
      (loadLoopF fuel st rws = .ok st' ∨ loadLoopF fuel st rws = .error st') →
      SetsOk rows st'.sets := by
  intro fuel
  induction fuel with
  | zero =>
    intro rws st st' hs _ hres
    rcases hres with h | h
    · injection h with h
      subst h
      exact hs
    · cases h
  | succ fuel ih =>
    intro rws st st' hs hr hres
    by_cases he : rws.isEmpty = true
    · simp only [loadLoopF, he, if_true] at hres
      rcases hres with h | h
      · injection h with h
        subst h
        exact hs
      · cases h
    · simp only [loadLoopF] at hres
      rw [if_neg he] at hres
      have htk : ∀ k v, (k, Payload.lit v) ∈ rws.take batch_size →
          v.isTruthy = true → GoodKey rows k :=
        fun k v hk hv => hr k v (List.mem_of_mem_take hk) hv
      cases hbt : batchLoop [] 0 st (rws.take batch_size) with
      | error st2 =>
        rw [hbt] at hres
        rcases hres with h | h
        · cases h
        · injection h with h
          subst h
          exact batchLoop_ok (rws.take batch_size) [] 0 st st2 hs
            (fun c hc => absurd hc (List.not_mem_nil _)) htk (Or.inr hbt)
      | ok st2 =>
        rw [hbt] at hres
        exact ih (rws.drop batch_size) st2 st'
          (batchLoop_ok (rws.take batch_size) [] 0 st st2 hs
            (fun c hc => absurd hc (List.not_mem_nil _)) htk (Or.inl hbt))
          (fun k v hk hv => hr k v (List.mem_of_mem_drop hk) hv) hres

/-- Claim C10: after a load that had to run (marker mismatch) and completed
normally, every citation-set key in the store is nonempty and belongs to a
curie with at least one truthy snapshot row; in particular a row whose
serialized list decodes to an empty collection contributes no entry, so a
concept with an empty citation set is represented by the absence of its
key. -/
theorem curie_pmids_key_only_for_nonempty (rows : List Row) (version : String)
    (st : RedisState) (hv : st.version ≠ some version)
    (hok : (curie_pmids_into_memory rows version st).error = none) :
    ∀ e ∈ (curie_pmids_into_memory rows version st).state.sets,
      e.2 ≠ [] ∧ ∃ v : PyValue, (e.1, Payload.lit v) ∈ rows ∧
        v.isTruthy = true := by
  rw [load_fresh rows version st hv] at hok ⊢
  have hempty : curie_pmids_into_memory rows version RedisState.empty =
      match loadLoop RedisState.empty rows with
      | .ok st2 => ⟨{ st2 with version := some version }, none⟩
      | .error st2 =>
        ⟨{ st2 with version := some version }, some .decodeError⟩ := rfl
  rw [hempty] at hok ⊢
  cases hll : loadLoop RedisState.empty rows with
  | error st2 =>
    rw [hll] at hok
    cases hok
  | ok st2 =>
    intro e he
    exact loadLoopF_ok rows.length rows RedisState.empty st2
      (fun e' he' => absurd he' (List.not_mem_nil _))
      (fun k v hk hvv => ⟨v, hk, hvv⟩) (Or.inl hll) e he

/-- Witness for C10 on a two-row snapshot, one row with citations and one
row decoding to the empty list: the key for the nonempty row is in the
store, is nonempty, and traces back to a truthy row. -/
theorem curie_pmids_key_only_for_nonempty_witness :
    ("CHEBI:1", [RVal.int 1]).2 ≠ [] ∧
    ∃ v : PyValue, (("CHEBI:1", [RVal.int 1]).1, Payload.lit v) ∈
        [("CHEBI:1", Payload.lit (.list [1])), ("EMPTY:1", Payload.lit (.list []))] ∧
      v.isTruthy = true :=
  curie_pmids_key_only_for_nonempty
    [("CHEBI:1", Payload.lit (.list [1])), ("EMPTY:1", Payload.lit (.list []))]
    "2.10.2" RedisState.empty (by decide) (by decide)
    ("CHEBI:1", [RVal.int 1]) (by decide)

/-! ## Theorems about the builder orchestrator -/

/-- Claim C3: whenever the Plover version endpoint does not report exactly
the requested build version — it errors, yields no parseable version, or
yields a different one — the builder never reaches the cache-load or
compute steps and leaves the Redis store untouched. -/
theorem builder_version_mismatch_no_mutation (version : String) (env : BuildEnv)
    (h : ∀ pv, get_kg2_version_from_plover env.plover = .ok (some pv) →
      pv ≠ version) :
    BuildAction.cacheLoad ∉ (curie_ngd_builder_main version env).actions ∧
    BuildAction.compute ∉ (curie_ngd_builder_main version env).actions ∧
    (curie_ngd_builder_main version env).redis = env.redis0 := by
  unfold curie_ngd_builder_main
  split
  · exact ⟨by simp, by simp, rfl⟩
  · split
    · exact ⟨by simp, by simp, rfl⟩
    · exact ⟨by simp, by simp, rfl⟩
    · split
      · exact ⟨by simp, by simp, rfl⟩
      · split
        · exact ⟨by simp, by simp, rfl⟩
        · exact ⟨by simp, by simp, rfl⟩
        · rename_i pv heq
          split
          · exact ⟨by simp, by simp, rfl⟩
          · rename_i hne
            exact absurd (h pv heq) hne


/-- Witness for C3: requesting build version 2.10.3 while Plover reports
2.10.2 stops the run with no cache mutation. -/
theorem builder_version_mismatch_no_mutation_witness :
    BuildAction.cacheLoad ∉ (curie_ngd_builder_main "2.10.3" envPlover2102).actions ∧
    BuildAction.compute ∉ (curie_ngd_builder_main "2.10.3" envPlover2102).actions ∧
    (curie_ngd_builder_main "2.10.3" envPlover2102).redis = envPlover2102.redis0 :=
  builder_version_mismatch_no_mutation "2.10.3" envPlover2102 (by
    intro pv hp
    rw [show get_kg2_version_from_plover envPlover2102.plover =
        .ok (some "2.10.2") from rfl] at hp
    injection hp with hp
    injection hp with hp
    subst hp
    decide)

/-- Claim C4 (failing evaluation): the version-mismatch run — a run that
terminates in a failure state, having logged a version-mismatch error and
stopped before computing — exits via `exit(0)`, the very same exit status
as the fully successful run of the same environment with the matching
requested version.  The exit status therefore does not distinguish this
failure from success. -/
theorem builder_failure_exits_with_success_status :
    (curie_ngd_builder_main "2.10.3" envPlover2102).outcome = .exited 0 ∧
    (curie_ngd_builder_main "2.10.3" envPlover2102).actions =
      [.checkRemote, .download, .queryPlover] ∧
    (curie_ngd_builder_main "2.10.2" envPlover2102).outcome = .exited 0 ∧
    (curie_ngd_builder_main "2.10.2" envPlover2102).actions =
      [.checkRemote, .download, .queryPlover, .cacheLoad, .compute, .upload] := by
  refine ⟨rfl, rfl, rfl, rfl⟩

/-- Claim C9: the builder proceeds past its first step only when
`remote_file_exist` reports that the output artifact is already present on
the remote host; when the artifact is absent the run logs an error and
exits at once with status 0, performing no download, cache load, compute
or upload. -/
theorem builder_requires_remote_artifact (version : String) (env : BuildEnv)
    (hv : matchesVersionPattern version.toList = true) :
    (env.remoteExists = .ok false →
      curie_ngd_builder_main version env =
        ⟨.exited 0, [.checkRemote], env.redis0⟩) ∧
    (BuildAction.download ∈ (curie_ngd_builder_main version env).actions →
      env.remoteExists = .ok true) := by
  unfold curie_ngd_builder_main
  rw [hv]
  simp only [Bool.not_true, Bool.false_eq_true, if_false]
  cases hre : env.remoteExists with
  | error e =>
    exact ⟨fun h => Except.noConfusion h, fun h => by simp at h⟩
  | ok b =>
    cases b with
    | false => exact ⟨fun _ => rfl, fun h => by simp at h⟩
    | true =>
      refine ⟨fun h => ?_, fun _ => rfl⟩
      injection h with h
      cases h


/-- Witness for C9: with the remote artifact absent, the run stops right
after the remote check with exit status 0 and an untouched store. -/
theorem builder_requires_remote_artifact_witness :
    curie_ngd_builder_main "2.10.2" envArtifactAbsent =
      ⟨.exited 0, [.checkRemote], envArtifactAbsent.redis0⟩ :=
  (builder_requires_remote_artifact "2.10.2" envArtifactAbsent (by decide)).1 rfl

/-! ## Theorems about the NGD metric -/

/-- Claim C7: with the citation sets and the normalizing constant fixed,
the NGD score is symmetric in its two concepts, sentinel branches
included. -/
theorem ngd_symm (logN : ℝ) (A B : Finset ℕ) : ngd logN A B = ngd logN B A := by
  simp only [ngd, Finset.inter_comm, or_comm, min_comm, max_comm]

/-! ## Theorems about the Plover version extraction -/

/-- `takeWhile` walks through a prefix all of whose elements satisfy the
predicate. -/
lemma takeWhile_append_all {p : Char → Bool} :
    ∀ (l1 l2 : List Char), (∀ c ∈ l1, p c = true) →
      (l1 ++ l2).takeWhile p = l1 ++ l2.takeWhile p
  | [], _, _ => rfl
  | c :: l1, l2, h => by
    have hc : p c = true := h c (List.mem_cons_self _ _)
    simp only [List.cons_append, List.takeWhile_cons, hc, if_true]
    rw [takeWhile_append_all l1 l2 (fun c' h' => h c' (List.mem_cons_of_mem _ h'))]

/-- `dropWhile` skips a prefix all of whose elements satisfy the
predicate. -/
lemma dropWhile_append_all {p : Char → Bool} :
    ∀ (l1 l2 : List Char), (∀ c ∈ l1, p c = true) →
      (l1 ++ l2).dropWhile p = l2.dropWhile p
  | [], _, _ => rfl
  | c :: l1, l2, h => by
    have hc : p c = true := h c (List.mem_cons_self _ _)
    simp only [List.cons_append, List.dropWhile_cons, hc, if_true]
    exact dropWhile_append_all l1 l2 (fun c' h' => h c' (List.mem_cons_of_mem _ h'))

/-- Assembling three nonempty digit runs with dots in between yields a
string matching the anchored `\d+\.\d+\.\d+` pattern. -/
lemma matchesVersionPattern_build (d1 d2 d3 : List Char)
    (h1 : ∀ c ∈ d1, c.isDigit = true) (h2 : ∀ c ∈ d2, c.isDigit = true)
    (h3 : ∀ c ∈ d3, c.isDigit = true)
    (n1 : d1 ≠ []) (n2 : d2 ≠ []) (n3 : d3 ≠ []) :
    matchesVersionPattern (d1 ++ '.' :: (d2 ++ '.' :: d3)) = true := by
  have hdot : ('.' : Char).isDigit = false := rfl
  have e1 : (d1 ++ '.' :: (d2 ++ '.' :: d3)).takeWhile Char.isDigit = d1 := by
    rw [takeWhile_append_all d1 _ h1, List.takeWhile_cons, hdot]
    simp
  have e2 : (d1 ++ '.' :: (d2 ++ '.' :: d3)).dropWhile Char.isDigit =
      '.' :: (d2 ++ '.' :: d3) := by
    rw [dropWhile_append_all d1 _ h1, List.dropWhile_cons, hdot]
    simp
  have e3 : (d2 ++ '.' :: d3).takeWhile Char.isDigit = d2 := by
    rw [takeWhile_append_all d2 _ h2, List.takeWhile_cons, hdot]
    simp
  have e4 : (d2 ++ '.' :: d3).dropWhile Char.isDigit = '.' :: d3 := by
    rw [dropWhile_append_all d2 _ h2, List.dropWhile_cons, hdot]
    simp
  have e5 : d3.takeWhile Char.isDigit = d3 := List.takeWhile_eq_self_iff.mpr h3
  have e6 : d3.dropWhile Char.isDigit = [] := List.dropWhile_eq_nil_iff.mpr h3
  unfold matchesVersionPattern
  rw [e1, e2]
  show (match (d2 ++ '.' :: d3).dropWhile Char.isDigit with
    | c2 :: r2 =>
      if c2 = '.' then
        !d1.isEmpty && !((d2 ++ '.' :: d3).takeWhile Char.isDigit).isEmpty &&
          !(r2.takeWhile Char.isDigit).isEmpty &&
          (r2.dropWhile Char.isDigit).isEmpty
      else false
    | [] => false) = true
  rw [e3, e4]
  show (if ('.' : Char) = '.' then
      !d1.isEmpty && !d2.isEmpty && !(d3.takeWhile Char.isDigit).isEmpty &&
        (d3.dropWhile Char.isDigit).isEmpty
    else false) = true
  rw [e5, e6]
  have b1 : d1.isEmpty = false := by cases d1 with
    | nil => exact absurd rfl n1
    | cons a l => rfl
  have b2 : d2.isEmpty = false := by cases d2 with
    | nil => exact absurd rfl n2
    | cons a l => rfl
  have b3 : d3.isEmpty = false := by cases d3 with
    | nil => exact absurd rfl n3
    | cons a l => rfl
  rw [b1, b2, b3]
  rfl

/-- Whatever `matchVersionHere` captures matches the anchored version
pattern. -/
lemma matchVersionHere_matches :
    ∀ {l v : List Char}, matchVersionHere l = some v →
      matchesVersionPattern v = true := by
  intro l v h
  simp only [matchVersionHere] at h
  by_cases h1 : (l.takeWhile Char.isDigit).isEmpty = true
  · rw [if_pos h1] at h
    cases h
  · rw [if_neg h1] at h
    split at h
    · rename_i c1 r1 heq1
      by_cases hc1 : c1 = '.'
      · rw [if_pos hc1] at h
        by_cases h2 : (r1.takeWhile Char.isDigit).isEmpty = true
        · rw [if_pos h2] at h
          cases h
        · rw [if_neg h2] at h
          split at h
          · rename_i c2 r2 heq2
            by_cases hc2 : c2 = '.'
            · rw [if_pos hc2] at h
              by_cases h3 : (r2.takeWhile Char.isDigit).isEmpty = true
              · rw [if_pos h3] at h
                cases h
              · rw [if_neg h3] at h
                injection h with h
                subst h
                refine matchesVersionPattern_build _ _ _
                  (fun c hc => List.mem_takeWhile_imp hc)
                  (fun c hc => List.mem_takeWhile_imp hc)
                  (fun c hc => List.mem_takeWhile_imp hc) ?_ ?_ ?_
                · intro e
                  rw [e] at h1
                  exact h1 rfl
                · intro e
                  rw [e] at h2
                  exact h2 rfl
                · intro e
                  rw [e] at h3
                  exact h3 rfl
            · rw [if_neg hc2] at h
              cases h
          · cases h
      · rw [if_neg hc1] at h
        cases h
    · cases h

/-- Whatever the `kg2c-` anchored match captures matches the version
pattern. -/
lemma matchKg2cHere_matches {l v : List Char} (h : matchKg2cHere l = some v) :
    matchesVersionPattern v = true := by
  unfold matchKg2cHere at h
  split at h
  · exact matchVersionHere_matches h
  · cases h

/-- Whatever `re.search` finds matches the version pattern. -/
lemma searchKg2c_matches :
    ∀ {l v : List Char}, searchKg2c l = some v → matchesVersionPattern v = true := by
  intro l
  induction l with
  | nil => intro v h; cases h
  | cons c rest ih =>
    intro v h
    simp only [searchKg2c] at h
    cases hm : matchKg2cHere (c :: rest) with
    | some w =>
      rw [hm] at h
      injection h with h
      subst h
      exact matchKg2cHere_matches hm
    | none =>
      rw [hm] at h
      exact ih h

/-- `re.search` comes back empty exactly when the pattern matches at no
start position. -/
lemma searchKg2c_eq_none_iff :
    ∀ l : List Char, searchKg2c l = none ↔
      ∀ n, matchKg2cHere (l.drop n) = none := by
  intro l
  induction l with
  | nil =>
    constructor
    · intro _ n
      rw [List.drop_nil]
      rfl
    · intro _
      rfl
  | cons c rest ih =>
    simp only [searchKg2c]
    cases hm : matchKg2cHere (c :: rest) with
    | some w =>
      constructor
      · intro h
        cases h
      · intro h
        have := h 0
        rw [List.drop_zero, hm] at this
        cases this
    | none =>
      constructor
      · intro h n
        cases n with
        | zero =>
          rw [List.drop_zero]
          exact hm
        | succ n => exact (ih.mp h) n
      · intro h
        exact ih.mpr (fun n => h (n + 1))

/-- Claim C8: `get_kg2_version_from_plover` raises on an HTTP failure and
on an unexpected JSON structure; on a description it returns either a
string matching `\d+\.\d+\.\d+` — exactly when the `kg2c-(\d+\.\d+\.\d+)`
pattern matches somewhere in the description — or `None`, and never a
non-matching string. -/
theorem get_kg2_version_from_plover_contract (resp : PloverResponse) :
    get_kg2_version_from_plover .httpError = .error .httpError ∧
    get_kg2_version_from_plover .badJson = .error .keyError ∧
    (∀ s, get_kg2_version_from_plover resp = .ok (some s) →
      matchesVersionPattern s.toList = true) ∧
    (∀ description, resp = .ok description →
      (get_kg2_version_from_plover resp = .ok none ↔
        ∀ n, matchKg2cHere (description.toList.drop n) = none)) := by
  refine ⟨rfl, rfl, ?_, ?_⟩
  · intro s h
    cases resp with
    | httpError => cases h
    | badJson => cases h
    | ok d =>
      simp only [get_kg2_version_from_plover] at h
      cases hs : searchKg2c d.toList with
      | some w =>
        rw [hs] at h
        injection h with h
        injection h with h
        subst h
        exact searchKg2c_matches hs
      | none =>
        rw [hs] at h
        injection h with h
        cases h
  · intro d hd
    subst hd
    simp only [get_kg2_version_from_plover]
    cases hs : searchKg2c d.toList with
    | some w =>
      constructor
      · intro h
        injection h with h
        cases h
      · intro h
        rw [(searchKg2c_eq_none_iff d.toList).mpr h] at hs
        cases hs
    | none =>
      constructor
      · intro _
        exact (searchKg2c_eq_none_iff d.toList).mp hs
      · intro _
        rfl

/-- Witness for C8: on the description `Build node kg2c-2.10.2-v1.0` the
function returns `2.10.2`, which matches the version pattern. -/
theorem get_kg2_version_from_plover_contract_witness :
    matchesVersionPattern ("2.10.2" : String).toList = true :=
  (get_kg2_version_from_plover_contract
    (.ok "Build node kg2c-2.10.2-v1.0")).2.2.1 "2.10.2" rfl

end Pathfinder
